import Mathlib

/-!
Shallow embedding of `src/lamda_function/lab_setup.py` (the AWS lifecycle handler of the
DeFtunes data-pipeline lab) and proofs about it.

The program is sequential Python whose observable behaviour is the ordered list of calls it
issues to external collaborators (Glue, S3, IAM, STS, the Postgres driver, and the final
`cfnresponse.send`).  We embed each Python function as a Lean function returning a `Res α`:
an `Except Exn α` (the raised exception, if any) paired with the ordered trace of outward
calls issued before returning or raising.  The external world — what the enumeration calls
return, which calls raise — is a parameter `AwsEnv`, so theorems quantifying over `AwsEnv`
cover every combination of collaborator successes and failures (fault injection).
-/

/-- Completion-signal status passed to `cfnresponse.send` (`cfnresponse.SUCCESS` /
`cfnresponse.FAILED`, lines 225 and 228). -/
inductive Status where
  | SUCCESS
  | FAILED
  deriving DecidableEq, Repr

/-- Python exception classes relevant to `lab_setup.py`. -/
inductive Exn where
  | keyError
  | valueError
  | attributeError
  | clientError
  | dbError
  deriving DecidableEq, Repr

/-- One outward call issued to an external collaborator.  `execStmt i s` is the execution of
the i-th statement of the split SQL script (the index labels the attempt so repeated
statement texts stay distinguishable); `execImport` is the bulk-import statement built from
`format_load`; `send` is the completion signal. -/
inductive Call where
  | listRulesets
  | deleteRuleset (name : String)
  | deleteJob (name : String)
  | getDatabases
  | getTables (db : String)
  | deleteTable (db tbl : String)
  | deleteDatabase (name : String)
  | deleteConnection (name : String)
  | deleteRolePolicy (role policy : String)
  | deleteRole (name : String)
  | emptyBucket (name : String)
  | s3GetObject (bucket key : String)
  | connectDb
  | execStmt (i : Nat) (stmt : String)
  | assumeRole (arn : String)
  | execImport (stmt : String)
  | send (s : Status)
  deriving DecidableEq, Repr

/-- The external world: the responses of the enumeration calls (`list_data_quality_rulesets`,
`get_databases`, `get_tables`), the statement list produced by `sqlparse.split` on the
fetched script, the credentials returned by STS, and fault injection: `fails c = true`
means the call `c` raises. -/
structure AwsEnv where
  rulesets : List String
  databases : List String
  tables : String → List String
  scriptStatements : List String
  accessKey : String
  secretKey : String
  sessionToken : String
  fails : Call → Bool

/-- Result of running a fragment of the Python program: the value produced or the exception
raised, together with the ordered trace of outward calls issued along the way. -/
def Res (α : Type) : Type := Except Exn α × List Call

instance : Monad Res where
  pure a := (Except.ok a, [])
  bind a f :=
    match a with
    | (Except.error e, tr) => (Except.error e, tr)
    | (Except.ok v, tr) => ((f v).1, tr ++ (f v).2)

/-- Python `try: a except Exception: h` — every exception from `a` is swallowed and `h`
runs; calls issued by `a` before raising stay issued. -/
def Res.catchAll {α : Type} (a : Res α) (h : Res α) : Res α :=
  match a with
  | (Except.ok v, tr) => (Except.ok v, tr)
  | (Except.error _, tr) => (h.1, tr ++ h.2)

/-- Python `try: a except ClientError: h` (line 156): only `ClientError` is caught. -/
def Res.catchClientError {α : Type} (a : Res α) (h : Res α) : Res α :=
  match a with
  | (Except.ok v, tr) => (Except.ok v, tr)
  | (Except.error e, tr) =>
      if e = Exn.clientError then (h.1, tr ++ h.2) else (Except.error e, tr)

/-- Issue one outward call; the fault-injection oracle decides whether it raises `e`. -/
def issue (env : AwsEnv) (c : Call) (e : Exn) : Res Unit :=
  (if env.fails c then Except.error e else Except.ok (), [c])

/-- Python dict lookup `event["K"]`: raises `KeyError` when the key is absent. -/
def getKey (o : Option String) : Res String :=
  match o with
  | some s => (Except.ok s, [])
  | none => (Except.error Exn.keyError, [])

/-- The module-level configuration values, lines 13-24. -/
structure Config where
  DBHOST : String
  DBPORT : Int
  DBNAME : String
  DBUSER : String
  DBPASSWORD : String
  BUCKET_NAME : String
  OBJECT_KEY : String
  IAM_ROLE_ARN : String
  BUCKET_PATH : String
  ACCOUNT_ID : String
  PROJECT : String
  REGION : String
  deriving DecidableEq, Repr

/-- Python `os.getenv(name, dflt)`. -/
def os_getenv (environ : String → Option String) (name dflt : String) : String :=
  (environ name).getD dflt

/-- Helper for `pyInt`: parse a non-empty run of decimal digits (base-10 accumulator). -/
def parseDigits : List Char → Nat → Option Nat
  | [], acc => some acc
  | c :: cs, acc =>
      if c.isDigit then parseDigits cs (acc * 10 + (c.toNat - '0'.toNat)) else none

/-- Python `int(s)`: an optional sign followed by at least one decimal digit, anything
else — in particular `int("")` — raises `ValueError`. -/
def pyInt (s : String) : Except Exn Int :=
  match s.data with
  | [] => Except.error Exn.valueError
  | '-' :: [] => Except.error Exn.valueError
  | '-' :: c :: cs =>
      match parseDigits (c :: cs) 0 with
      | some n => Except.ok (-(n : Int))
      | none => Except.error Exn.valueError
  | c :: cs =>
      match parseDigits (c :: cs) 0 with
      | some n => Except.ok (n : Int)
      | none => Except.error Exn.valueError

/-- Module-level configuration reads, lines 13-24, in source order.  Only the DBPORT read
can raise (`int(os.getenv("DBPORT", ""))` on line 14); every other variable takes its
`os.getenv` default directly. -/
def readConfig (environ : String → Option String) : Except Exn Config := do
  let dbhost := os_getenv environ "DBHOST" ""
  let dbport ← pyInt (os_getenv environ "DBPORT" "")
  let dbname := os_getenv environ "DBDATABASE" "postgres"
  let dbuser := os_getenv environ "DBUSER" ""
  let dbpassword := os_getenv environ "DBPASSWORD" ""
  let bucket_name := os_getenv environ "BUCKET_NAME" ""
  let object_key := os_getenv environ "OBJECT_KEY" ""
  let iam_role_arn := os_getenv environ "IAM_ROLE_ARN" ""
  let bucket_path := os_getenv environ "BUCKET_PATH" "labs/cfn_dependencies/c4w4a1/csv"
  let account_id := os_getenv environ "ACCOUNT_ID" ""
  let project := os_getenv environ "PROJECT" "de-c4w4a1"
  let region := os_getenv environ "REGION" "us-east-1"
  Except.ok
    { DBHOST := dbhost, DBPORT := dbport, DBNAME := dbname, DBUSER := dbuser,
      DBPASSWORD := dbpassword, BUCKET_NAME := bucket_name, OBJECT_KEY := object_key,
      IAM_ROLE_ARN := iam_role_arn, BUCKET_PATH := bucket_path, ACCOUNT_ID := account_id,
      PROJECT := project, REGION := region }

/-- Module-level `glue_jobs` list, lines 38-42. -/
def glue_jobs (cfg : Config) : List String :=
  [cfg.PROJECT ++ "-api-users-extract-job",
   cfg.PROJECT ++ "-api-sessions-extract-job",
   cfg.PROJECT ++ "-rds-extract-job",
   cfg.PROJECT ++ "-json-transform-job",
   cfg.PROJECT ++ "-songs-transform-job"]

/-- Module-level `s3_buckets` list, lines 44-47. -/
def s3_buckets (cfg : Config) : List String :=
  [cfg.PROJECT ++ "-" ++ cfg.ACCOUNT_ID ++ "-" ++ cfg.REGION ++ "-scripts",
   cfg.PROJECT ++ "-" ++ cfg.ACCOUNT_ID ++ "-" ++ cfg.REGION ++ "-data-lake",
   cfg.PROJECT ++ "-" ++ cfg.ACCOUNT_ID ++ "-" ++ cfg.REGION ++ "-dags",
   cfg.PROJECT ++ "-" ++ cfg.ACCOUNT_ID ++ "-" ++ cfg.REGION ++ "-dbt"]

/-- `empty_bucket`, lines 57-64: the whole body is inside `try ... except Exception`,
which only logs.  Never raises. -/
def empty_bucket (env : AwsEnv) (bucket_name : String) : Res Unit :=
  Res.catchAll (issue env (Call.emptyBucket bucket_name) Exn.clientError) (pure ())

/-- `delete_table`, lines 67-77: `glue_client.delete_table` inside `try ... except
Exception`, which only logs.  Never raises. -/
def delete_table (env : AwsEnv) (database_name table_name : String) : Res Unit :=
  Res.catchAll (issue env (Call.deleteTable database_name table_name) Exn.clientError)
    (pure ())

/-- `delete_database`, lines 80-89: `glue_client.delete_database` inside `try ... except
Exception`, which only logs.  Never raises. -/
def delete_database (env : AwsEnv) (database_name : String) : Res Unit :=
  Res.catchAll (issue env (Call.deleteDatabase database_name) Exn.clientError) (pure ())

/-- The ruleset deletion loop, lines 97-101.  The loop body evaluates
`glue_rulesets.delete_data_quality_ruleset(Name=...)` where `glue_rulesets` is the dict
returned by `list_data_quality_rulesets()` on line 95, not the glue client; a dict has no
attribute `delete_data_quality_ruleset`, so the first iteration raises `AttributeError`
before any delete call is issued.  With an empty ruleset list the body never runs. -/
def deleteRulesetsLoop (names : List String) : Res Unit :=
  match names with
  | [] => pure ()
  | _ :: _ => (Except.error Exn.attributeError, [])

/-- Teardown step 1, lines 93-103: list rulesets and run the (broken) deletion loop, the
whole step wrapped in `try ... except Exception`. -/
def rulesetsStep (env : AwsEnv) : Res Unit :=
  Res.catchAll
    (do
      issue env Call.listRulesets Exn.clientError
      deleteRulesetsLoop env.rulesets)
    (pure ())

/-- Teardown step 2, lines 105-111: delete each Glue job, one `try ... except Exception`
per job. -/
def deleteJobsLoop (env : AwsEnv) : List String → Res Unit
  | [] => pure ()
  | j :: rest => do
      Res.catchAll (issue env (Call.deleteJob j) Exn.clientError) (pure ())
      deleteJobsLoop env rest

/-- The inner table loop, lines 121-123. -/
def walkTables (env : AwsEnv) (db : String) : List String → Res Unit
  | [] => pure ()
  | t :: ts => do
      delete_table env db t
      walkTables env db ts

/-- The database loop, lines 115-124: skip the `default` database; `get_tables` may raise,
aborting the remaining walk (the exception is caught at the step boundary, line 125). -/
def walkDatabases (env : AwsEnv) : List String → Res Unit
  | [] => pure ()
  | db :: rest =>
      if db = "default" then walkDatabases env rest
      else do
        issue env (Call.getTables db) Exn.clientError
        walkTables env db (env.tables db)
        delete_database env db
        walkDatabases env rest

/-- Teardown step 3, lines 112-127: `get_databases` plus the walk, the whole step wrapped
in `try ... except Exception`. -/
def catalogStep (env : AwsEnv) : Res Unit :=
  Res.catchAll
    (do
      issue env Call.getDatabases Exn.clientError
      walkDatabases env env.databases)
    (pure ())

/-- Teardown step 4, lines 128-135: delete the Glue connection, wrapped in
`try ... except Exception`. -/
def connectionStep (cfg : Config) (env : AwsEnv) : Res Unit :=
  Res.catchAll
    (issue env (Call.deleteConnection (cfg.PROJECT ++ "-connection-rds")) Exn.clientError)
    (pure ())

/-- Teardown step 5, lines 136-157: delete the role policy then the role, each wrapped in
its own `try ... except Exception`, the pair wrapped in an outer `try ... except
ClientError`. -/
def iamStep (cfg : Config) (env : AwsEnv) : Res Unit :=
  Res.catchClientError
    (do
      Res.catchAll
        (issue env
          (Call.deleteRolePolicy (cfg.PROJECT ++ "-glue-role")
            (cfg.PROJECT ++ "-glue-role-policy"))
          Exn.clientError)
        (pure ())
      Res.catchAll
        (issue env (Call.deleteRole (cfg.PROJECT ++ "-glue-role")) Exn.clientError)
        (pure ()))
    (pure ())

/-- `terraform_cleanup`, lines 92-157: the fixed five-step teardown sequence. -/
def terraform_cleanup (cfg : Config) (env : AwsEnv) : Res Unit := do
  rulesetsStep env
  deleteJobsLoop env (glue_jobs cfg)
  catalogStep env
  connectionStep cfg env
  iamStep cfg env

/-- The trace of calls issued by one run of `terraform_cleanup`. -/
def cleanupTrace (cfg : Config) (env : AwsEnv) : List Call :=
  (terraform_cleanup cfg env).2

/-- The `format_load` template of lines 160-164 applied to its five parameters, as done by
`format_load.format(...)` on lines 191-197. -/
def format_load (bucket_name bucket_path access_key secret_key session_token : String) :
    String :=
  "SELECT aws_s3.table_import_from_s3(\n   'deftunes.songs', '', '(format csv, HEADER true)',\n   aws_commons.create_s3_uri('"
    ++ bucket_name ++ "','" ++ bucket_path
    ++ "/songs.csv','us-east-1'),\n   aws_commons.create_aws_credentials('"
    ++ access_key ++ "', '" ++ secret_key ++ "', '" ++ session_token ++ "')\n);"

/-- The statement loop of lines 186-189: execute each split statement in order; a database
error propagates (fail-fast — there is no try/except here). -/
def execStatements (env : AwsEnv) (i : Nat) : List String → Res Unit
  | [] => pure ()
  | s :: rest => do
      issue env (Call.execStmt i s) Exn.dbError
      execStatements env (i + 1) rest

/-- `sts_assume_role`, lines 49-54: one STS call returning the temporary credentials. -/
def sts_assume_role (env : AwsEnv) (role_arn : String) : Res (String × String × String) :=
  (if env.fails (Call.assumeRole role_arn) then Except.error Exn.clientError
   else Except.ok (env.accessKey, env.secretKey, env.sessionToken),
   [Call.assumeRole role_arn])

/-- The Create branch body of `lambda_handler`, lines 170-200: run the teardown first, fetch
the SQL script, connect, execute the split statements, assume the import role, and execute
the bulk-import statement.  No exception is caught here. -/
def provisioning (cfg : Config) (env : AwsEnv) : Res Unit := do
  terraform_cleanup cfg env
  issue env (Call.s3GetObject cfg.BUCKET_NAME cfg.OBJECT_KEY) Exn.clientError
  issue env Call.connectDb Exn.dbError
  execStatements env 0 env.scriptStatements
  let creds ← sts_assume_role env cfg.IAM_ROLE_ARN
  issue env
    (Call.execImport (format_load cfg.BUCKET_NAME cfg.BUCKET_PATH creds.1 creds.2.1
      creds.2.2))
    Exn.dbError

/-- The lifecycle event, with each key optional so missing-key lookups can be modelled. -/
structure Event where
  RequestType : Option String
  PhysicalResourceId : Option String
  StackId : Option String
  RequestId : Option String
  LogicalResourceId : Option String
  ResponseURL : Option String
  deriving DecidableEq, Repr

/-- Line 27. -/
def CREATE : String := "Create"

/-- Line 28. -/
def DELETE : String := "Delete"

/-- The bucket loop of lines 204-205. -/
def emptyBuckets (env : AwsEnv) : List String → Res Unit
  | [] => pure ()
  | b :: bs => do
      empty_bucket env b
      emptyBuckets env bs

/-- The body of the top-level `try` of `lambda_handler`, lines 169-224: dispatch on
`event["RequestType"]` (looked up on line 170 and again on line 202); the Delete branch
empties the buckets and then reads the five event fields used to build and log the curl
payload (the payload is only logged, never sent). -/
def handlerBody (cfg : Config) (env : AwsEnv) (ev : Event) : Res Unit := do
  let rt ← getKey ev.RequestType
  if rt = CREATE then provisioning cfg env else pure ()
  let rt2 ← getKey ev.RequestType
  if rt2 = DELETE then do
    emptyBuckets env (s3_buckets cfg)
    let _pid ← getKey ev.PhysicalResourceId
    let _sid ← getKey ev.StackId
    let _rid ← getKey ev.RequestId
    let _lid ← getKey ev.LogicalResourceId
    let _url ← getKey ev.ResponseURL
    pure ()
  else pure ()

/-- `lambda_handler`, lines 167-228: run the body; on normal completion send SUCCESS
(line 225), on any exception send FAILED (line 228).  The result is the full trace of
outward calls of one invocation. -/
def lambda_handler (cfg : Config) (env : AwsEnv) (ev : Event) : List Call :=
  match handlerBody cfg env ev with
  | (Except.ok _, tr) => tr ++ [Call.send Status.SUCCESS]
  | (Except.error _, tr) => tr ++ [Call.send Status.FAILED]

/-- The completion signals present in a trace, in order. -/
def sends (tr : List Call) : List Status :=
  tr.filterMap fun c =>
    match c with
    | Call.send s => some s
    | _ => none

/-- Closed form of the catalog-walk trace (lines 115-124): per non-default database, the
`get_tables` call, then one delete per table, then the database delete; a failing
`get_tables` ends the walk. -/
def walkCalls (env : AwsEnv) : List String → List Call
  | [] => []
  | db :: rest =>
      if db = "default" then walkCalls env rest
      else if env.fails (Call.getTables db) then [Call.getTables db]
      else Call.getTables db ::
        ((env.tables db).map (Call.deleteTable db) ++
          (Call.deleteDatabase db :: walkCalls env rest))

/-- Closed form of the full `terraform_cleanup` trace. -/
def cleanupCalls (cfg : Config) (env : AwsEnv) : List Call :=
  Call.listRulesets ::
    ((glue_jobs cfg).map Call.deleteJob ++
      (Call.getDatabases ::
        ((if env.fails Call.getDatabases then [] else walkCalls env env.databases) ++
          (Call.deleteConnection (cfg.PROJECT ++ "-connection-rds") ::
            [Call.deleteRolePolicy (cfg.PROJECT ++ "-glue-role")
              (cfg.PROJECT ++ "-glue-role-policy"),
             Call.deleteRole (cfg.PROJECT ++ "-glue-role")]))))

/-- Closed form of the statement-loop trace: one `execStmt` per statement, indexed from
`i`. -/
def stmtCalls (i : Nat) : List String → List Call
  | [] => []
  | s :: rest => Call.execStmt i s :: stmtCalls (i + 1) rest

/-- Classifier for the calls that `terraform_cleanup` can issue. -/
def isCleanupCall : Call → Bool
  | Call.listRulesets => true
  | Call.deleteRuleset _ => true
  | Call.deleteJob _ => true
  | Call.getDatabases => true
  | Call.getTables _ => true
  | Call.deleteTable _ _ => true
  | Call.deleteDatabase _ => true
  | Call.deleteConnection _ => true
  | Call.deleteRolePolicy _ _ => true
  | Call.deleteRole _ => true
  | _ => false

/-- All five event fields read on the Delete path are present. -/
def hasAllDeleteKeys (ev : Event) : Bool :=
  ev.PhysicalResourceId.isSome && ev.StackId.isSome && ev.RequestId.isSome &&
    ev.LogicalResourceId.isSome && ev.ResponseURL.isSome

/-- Outcome of the five Delete-path field lookups (lines 208-222), in source order:
`KeyError` at the first missing field. -/
def deleteKeysResult (ev : Event) : Except Exn Unit :=
  match ev.PhysicalResourceId with
  | none => Except.error Exn.keyError
  | some _ =>
    match ev.StackId with
    | none => Except.error Exn.keyError
    | some _ =>
      match ev.RequestId with
      | none => Except.error Exn.keyError
      | some _ =>
        match ev.LogicalResourceId with
        | none => Except.error Exn.keyError
        | some _ =>
          match ev.ResponseURL with
          | none => Except.error Exn.keyError
          | some _ => Except.ok ()

/-- Ordering property of a trace: wherever a database-deletion attempt occurs, one
table-deletion attempt for each of that database's tables occurs strictly earlier. -/
def tablesFirst (tbls : String → List String) (tr : List Call) : Prop :=
  ∀ j db, tr[j]? = some (Call.deleteDatabase db) →
    ∀ t ∈ tbls db, Call.deleteTable db t ∈ tr.take j

/-- A concrete configuration used for witnesses. -/
def cfg0 : Config :=
  { DBHOST := "db.example.com", DBPORT := 5432, DBNAME := "postgres", DBUSER := "u",
    DBPASSWORD := "p", BUCKET_NAME := "bkt", OBJECT_KEY := "key.sql",
    IAM_ROLE_ARN := "arn-role", BUCKET_PATH := "labs/cfn_dependencies/c4w4a1/csv",
    ACCOUNT_ID := "acct", PROJECT := "de-c4w4a1", REGION := "us-east-1" }

/-- A concrete world with empty enumerations and no failures. -/
def envBase : AwsEnv :=
  { rulesets := [], databases := [], tables := fun _ => [], scriptStatements := [],
    accessKey := "AK", secretKey := "SK", sessionToken := "TK", fails := fun _ => false }

/-- A world where every external call fails. -/
def envFailAll : AwsEnv := { envBase with fails := fun _ => true }

/-- A world where the ruleset enumeration returns one ruleset. -/
def envRS : AwsEnv := { envBase with rulesets := ["rs1"] }

/-- A world with two real catalog databases plus the built-in default one. -/
def envWalk : AwsEnv :=
  { envBase with
    databases := ["db1", "default", "db2"],
    tables := fun d => if d = "db1" then ["t1", "t2"] else [] }

/-- A world whose SQL script splits into five statements, the third of which fails. -/
def envStmts : AwsEnv :=
  { envBase with
    scriptStatements := ["s1", "s2", "s3", "s4", "s5"],
    fails := fun c => c == Call.execStmt 2 "s3" }

/-- A Create event. -/
def evCreate : Event :=
  { RequestType := some "Create", PhysicalResourceId := none, StackId := none,
    RequestId := none, LogicalResourceId := none, ResponseURL := none }

/-- A well-formed Delete event. -/
def evDeleteFull : Event :=
  { RequestType := some "Delete", PhysicalResourceId := some "pid",
    StackId := some "sid", RequestId := some "rid", LogicalResourceId := some "lid",
    ResponseURL := some "url" }

/-- A Delete event missing PhysicalResourceId. -/
def evDeleteMissing : Event :=
  { RequestType := some "Delete", PhysicalResourceId := none, StackId := some "sid",
    RequestId := some "rid", LogicalResourceId := some "lid", ResponseURL := some "url" }

/-- A Delete event missing StackId. -/
def evDeleteNoStack : Event :=
  { RequestType := some "Delete", PhysicalResourceId := some "pid", StackId := none,
    RequestId := some "rid", LogicalResourceId := some "lid", ResponseURL := some "url" }

/-- An event with no keys at all. -/
def evNone : Event :=
  { RequestType := none, PhysicalResourceId := none, StackId := none, RequestId := none,
    LogicalResourceId := none, ResponseURL := none }

/-- An event whose RequestType is neither Create nor Delete. -/
def evUpdate : Event :=
  { RequestType := some "Update", PhysicalResourceId := none, StackId := none,
    RequestId := none, LogicalResourceId := none, ResponseURL := none }

/-! ## Reduction lemmas for the `Res` monad -/

@[simp] theorem Res.pure_eq {α : Type} (v : α) : (pure v : Res α) = (Except.ok v, []) := rfl

@[simp] theorem Res.ok_bind {α β : Type} (v : α) (tr : List Call) (f : α → Res β) :
    @Bind.bind Res _ α β (Except.ok v, tr) f = ((f v).1, tr ++ (f v).2) := rfl

@[simp] theorem Res.error_bind {α β : Type} (e : Exn) (tr : List Call) (f : α → Res β) :
    @Bind.bind Res _ α β (Except.error e, tr) f = (Except.error e, tr) := rfl

@[simp] theorem Res.catchAll_ok {α : Type} (v : α) (tr : List Call) (h : Res α) :
    Res.catchAll (Except.ok v, tr) h = (Except.ok v, tr) := rfl

@[simp] theorem Res.catchAll_error {α : Type} (e : Exn) (tr : List Call) (h : Res α) :
    Res.catchAll (Except.error e, tr) h = (h.1, tr ++ h.2) := rfl

@[simp] theorem Res.catchClientError_ok {α : Type} (v : α) (tr : List Call) (h : Res α) :
    Res.catchClientError (Except.ok v, tr) h = (Except.ok v, tr) := rfl

@[simp] theorem Res.catchClientError_error {α : Type} (e : Exn) (tr : List Call)
    (h : Res α) :
    Res.catchClientError (Except.error e, tr) h =
      if e = Exn.clientError then (h.1, tr ++ h.2) else (Except.error e, tr) := rfl

/-! ## Closed forms of the teardown steps -/

theorem delete_table_eq (env : AwsEnv) (db t : String) :
    delete_table env db t = (Except.ok (), [Call.deleteTable db t]) := by
  cases h : env.fails (Call.deleteTable db t) <;> simp [delete_table, issue, h]

theorem delete_database_eq (env : AwsEnv) (db : String) :
    delete_database env db = (Except.ok (), [Call.deleteDatabase db]) := by
  cases h : env.fails (Call.deleteDatabase db) <;> simp [delete_database, issue, h]

theorem empty_bucket_eq (env : AwsEnv) (b : String) :
    empty_bucket env b = (Except.ok (), [Call.emptyBucket b]) := by
  cases h : env.fails (Call.emptyBucket b) <;> simp [empty_bucket, issue, h]

theorem rulesetsStep_eq (env : AwsEnv) :
    rulesetsStep env = (Except.ok (), [Call.listRulesets]) := by
  unfold rulesetsStep
  cases h : env.fails Call.listRulesets <;>
    cases hr : env.rulesets <;>
      simp [issue, h, deleteRulesetsLoop, hr]

theorem deleteJobsLoop_eq (env : AwsEnv) (js : List String) :
    deleteJobsLoop env js = (Except.ok (), js.map Call.deleteJob) := by
  induction js with
  | nil => rfl
  | cons j rest ih =>
      cases h : env.fails (Call.deleteJob j) <;> simp [deleteJobsLoop, issue, h, ih]

theorem walkTables_eq (env : AwsEnv) (db : String) (ts : List String) :
    walkTables env db ts = (Except.ok (), ts.map (Call.deleteTable db)) := by
  induction ts with
  | nil => rfl
  | cons t ts ih => simp [walkTables, delete_table_eq, ih]

theorem walkDatabases_trace (env : AwsEnv) (dbs : List String) :
    (walkDatabases env dbs).2 = walkCalls env dbs := by
  induction dbs with
  | nil => rfl
  | cons db rest ih =>
      by_cases hdef : db = "default"
      · simp [walkDatabases, walkCalls, hdef, ih]
      · cases hft : env.fails (Call.getTables db)
        · rcases hw : walkDatabases env rest with ⟨r, tr⟩
          have htr : tr = walkCalls env rest := by
            have := ih
            rw [hw] at this
            exact this
          cases r <;>
            simp [walkDatabases, walkCalls, hdef, hft, issue, walkTables_eq,
              delete_database_eq, hw, htr]
        · simp [walkDatabases, walkCalls, hdef, hft, issue]

theorem catalogStep_eq (env : AwsEnv) :
    catalogStep env = (Except.ok (),
      Call.getDatabases ::
        (if env.fails Call.getDatabases then [] else walkCalls env env.databases)) := by
  unfold catalogStep
  cases h : env.fails Call.getDatabases
  · rcases hw : walkDatabases env env.databases with ⟨r, tr⟩
    have htr : tr = walkCalls env env.databases := by
      have := walkDatabases_trace env env.databases
      rw [hw] at this
      exact this
    cases r <;> simp [issue, h, hw, htr]
  · simp [issue, h]

theorem connectionStep_eq (cfg : Config) (env : AwsEnv) :
    connectionStep cfg env =
      (Except.ok (), [Call.deleteConnection (cfg.PROJECT ++ "-connection-rds")]) := by
  unfold connectionStep
  cases h : env.fails (Call.deleteConnection (cfg.PROJECT ++ "-connection-rds")) <;>
    simp [issue, h]

theorem iamStep_eq (cfg : Config) (env : AwsEnv) :
    iamStep cfg env = (Except.ok (),
      [Call.deleteRolePolicy (cfg.PROJECT ++ "-glue-role")
        (cfg.PROJECT ++ "-glue-role-policy"),
       Call.deleteRole (cfg.PROJECT ++ "-glue-role")]) := by
  unfold iamStep
  cases h1 : env.fails
      (Call.deleteRolePolicy (cfg.PROJECT ++ "-glue-role")
        (cfg.PROJECT ++ "-glue-role-policy")) <;>
    cases h2 : env.fails (Call.deleteRole (cfg.PROJECT ++ "-glue-role")) <;>
      simp [issue, h1, h2]

/-- Master structure lemma: `terraform_cleanup` always returns normally and its trace has
the closed form `cleanupCalls`. -/
theorem terraform_cleanup_eq (cfg : Config) (env : AwsEnv) :
    terraform_cleanup cfg env = (Except.ok (), cleanupCalls cfg env) := by
  unfold terraform_cleanup
  rw [rulesetsStep_eq env, deleteJobsLoop_eq env (glue_jobs cfg), catalogStep_eq env,
    connectionStep_eq cfg env, iamStep_eq cfg env]
  simp [cleanupCalls]

theorem cleanupTrace_eq (cfg : Config) (env : AwsEnv) :
    cleanupTrace cfg env = cleanupCalls cfg env := by
  unfold cleanupTrace
  rw [terraform_cleanup_eq]

/-! ## Index and take helpers -/

theorem take_append_add {α : Type} (l₁ l₂ : List α) (m : Nat) :
    (l₁ ++ l₂).take (l₁.length + m) = l₁ ++ l₂.take m := by
  induction l₁ with
  | nil => simp
  | cons a as ih =>
      simp only [List.cons_append, List.length_cons]
      rw [Nat.succ_add, List.take_succ_cons, ih]

theorem take_append_le {α : Type} (l₁ l₂ : List α) (n : Nat) (h : n ≤ l₁.length) :
    (l₁ ++ l₂).take n = l₁.take n := by
  rw [List.take_append_eq_append_take]
  simp [Nat.sub_eq_zero_of_le h]

/-! ## The tables-before-database ordering invariant -/

theorem tablesFirst_nil (tbls : String → List String) : tablesFirst tbls [] := by
  intro j db hj
  simp at hj

theorem tablesFirst_cons (tbls : String → List String) (c : Call) (tr : List Call)
    (hc : ∀ db, c ≠ Call.deleteDatabase db) (h : tablesFirst tbls tr) :
    tablesFirst tbls (c :: tr) := by
  intro j db hj t ht
  cases j with
  | zero =>
      simp only [List.getElem?_cons_zero, Option.some.injEq] at hj
      exact absurd hj (hc db)
  | succ j =>
      simp only [List.getElem?_cons_succ] at hj
      have := h j db hj t ht
      simp only [List.take_succ_cons]
      exact List.mem_cons_of_mem _ this

theorem tablesFirst_append_left (tbls : String → List String) (pre tr : List Call)
    (hpre : ∀ c ∈ pre, ∀ db, c ≠ Call.deleteDatabase db) (h : tablesFirst tbls tr) :
    tablesFirst tbls (pre ++ tr) := by
  induction pre with
  | nil => simpa using h
  | cons c cs ih =>
      simp only [List.cons_append]
      refine tablesFirst_cons tbls c (cs ++ tr) (hpre c (by simp)) (ih ?_)
      intro c2 hc2
      exact hpre c2 (by simp [hc2])

theorem tablesFirst_append_right (tbls : String → List String) (tr post : List Call)
    (h : tablesFirst tbls tr)
    (hpost : ∀ c ∈ post, ∀ db, c ≠ Call.deleteDatabase db) :
    tablesFirst tbls (tr ++ post) := by
  intro j db hj t ht
  by_cases hlt : j < tr.length
  · rw [List.getElem?_append_left hlt] at hj
    have hmem := h j db hj t ht
    rw [take_append_le tr post j (Nat.le_of_lt hlt)]
    exact hmem
  · push_neg at hlt
    rw [List.getElem?_append_right hlt] at hj
    have : Call.deleteDatabase db ∈ post := List.getElem?_mem hj
    exact absurd rfl (hpost _ this db)

theorem tablesFirst_block (tbls : String → List String) (db : String) (tr : List Call)
    (h : tablesFirst tbls tr) :
    tablesFirst tbls
      ((tbls db).map (Call.deleteTable db) ++ (Call.deleteDatabase db :: tr)) := by
  intro j d hj t ht
  rcases Nat.lt_trichotomy j ((tbls db).map (Call.deleteTable db)).length with hlt | heq | hgt
  · rw [List.getElem?_append_left hlt] at hj
    have hmem : Call.deleteDatabase d ∈ (tbls db).map (Call.deleteTable db) :=
      List.getElem?_mem hj
    rcases List.mem_map.mp hmem with ⟨x, _, hx⟩
    exact absurd hx (by simp)
  · rw [heq, List.getElem?_append_right (Nat.le_refl _)] at hj
    simp only [Nat.sub_self, List.getElem?_cons_zero, Option.some.injEq,
      Call.deleteDatabase.injEq] at hj
    subst hj
    have htake :
        (((tbls db).map (Call.deleteTable db)) ++ (Call.deleteDatabase db :: tr)).take
            ((tbls db).map (Call.deleteTable db)).length =
          (tbls db).map (Call.deleteTable db) := by
      have h0 := take_append_add ((tbls db).map (Call.deleteTable db))
        (Call.deleteDatabase db :: tr) 0
      simp only [Nat.add_zero, List.take_zero, List.append_nil] at h0
      exact h0
    rw [heq, htake]
    exact List.mem_map_of_mem _ ht
  · have h1 : ((tbls db).map (Call.deleteTable db)).length ≤ j := Nat.le_of_lt hgt
    rw [List.getElem?_append_right h1] at hj
    obtain ⟨j2, hj2⟩ : ∃ j2, j - ((tbls db).map (Call.deleteTable db)).length = j2 + 1 := by
      refine ⟨j - ((tbls db).map (Call.deleteTable db)).length - 1, ?_⟩
      omega
    rw [hj2] at hj
    simp only [List.getElem?_cons_succ] at hj
    have hmem := h j2 d hj t ht
    have hj3 : j = ((tbls db).map (Call.deleteTable db)).length + (j2 + 1) := by omega
    rw [hj3, take_append_add, List.take_succ_cons]
    exact List.mem_append_right _ (List.mem_cons_of_mem _ hmem)

theorem walkCalls_tablesFirst (env : AwsEnv) (dbs : List String) :
    tablesFirst env.tables (walkCalls env dbs) := by
  induction dbs with
  | nil => exact tablesFirst_nil _
  | cons db rest ih =>
      by_cases hdef : db = "default"
      · simpa [walkCalls, hdef] using ih
      · by_cases hft : env.fails (Call.getTables db) = true
        · simp only [walkCalls, hdef, hft, if_false, if_true]
          exact tablesFirst_cons _ _ _ (by simp) (tablesFirst_nil _)
        · simp only [walkCalls, hdef, hft, if_false, if_true]
          exact tablesFirst_cons _ _ _ (by simp) (tablesFirst_block env.tables db _ ih)

theorem walkCalls_default_free (env : AwsEnv) (dbs : List String) :
    Call.deleteDatabase "default" ∉ walkCalls env dbs ∧
    ∀ t, Call.deleteTable "default" t ∉ walkCalls env dbs := by
  induction dbs with
  | nil => simp [walkCalls]
  | cons db rest ih =>
      by_cases hdef : db = "default"
      · simpa [walkCalls, hdef] using ih
      · by_cases hft : env.fails (Call.getTables db) = true
        · simp [walkCalls, hdef, hft]
        · refine ⟨?_, ?_⟩
          · intro hmem
            simp [walkCalls, hdef, hft] at hmem
            rcases hmem with h1 | h2
            · exact hdef h1.symm
            · exact ih.1 h2
          · intro t hmem
            simp [walkCalls, hdef, hft] at hmem
            exact ih.2 t hmem

/-! ## Classifying the cleanup trace and counting completion signals -/

theorem walkCalls_classified (env : AwsEnv) (dbs : List String) :
    ∀ c ∈ walkCalls env dbs, isCleanupCall c = true := by
  induction dbs with
  | nil => simp [walkCalls]
  | cons db rest ih =>
      by_cases hdef : db = "default"
      · simpa [walkCalls, hdef] using ih
      · by_cases hft : env.fails (Call.getTables db) = true
        · simp [walkCalls, hdef, hft, isCleanupCall]
        · intro c hc
          simp [walkCalls, hdef, hft] at hc
          rcases hc with h1 | h2 | h3 | h4
          · simp [h1, isCleanupCall]
          · rcases h2 with ⟨x, _, hx⟩
            simp [← hx, isCleanupCall]
          · simp [h3, isCleanupCall]
          · exact ih c h4

theorem cleanupCalls_classified (cfg : Config) (env : AwsEnv) :
    ∀ c ∈ cleanupCalls cfg env, isCleanupCall c = true := by
  intro c hc
  simp [cleanupCalls] at hc
  rcases hc with h1 | h2 | h3 | h4 | h5 | h6 | h7
  · simp [h1, isCleanupCall]
  · rcases h2 with ⟨x, _, hx⟩
    simp [← hx, isCleanupCall]
  · simp [h3, isCleanupCall]
  · by_cases hg : env.fails Call.getDatabases = true
    · simp [hg] at h4
    · simp [hg] at h4
      exact walkCalls_classified env env.databases c h4
  · simp [h5, isCleanupCall]
  · simp [h6, isCleanupCall]
  · simp [h7, isCleanupCall]

theorem sends_append (a b : List Call) : sends (a ++ b) = sends a ++ sends b :=
  List.filterMap_append a b _

theorem sends_of_classified (tr : List Call) (h : ∀ c ∈ tr, isCleanupCall c = true) :
    sends tr = [] := by
  induction tr with
  | nil => rfl
  | cons c rest ih =>
      have hc := h c (by simp)
      have hr := ih fun c2 hc2 => h c2 (by simp [hc2])
      cases c <;> simp [sends, List.filterMap_cons] at * <;> first
        | exact hr
        | exact absurd hc (by simp [isCleanupCall])

theorem sends_cleanupCalls (cfg : Config) (env : AwsEnv) :
    sends (cleanupCalls cfg env) = [] :=
  sends_of_classified _ (cleanupCalls_classified cfg env)

/-! ## The statement loop -/

theorem stmtCalls_mem_iff (i : Nat) (l : List String) (c : Call) :
    c ∈ stmtCalls i l ↔ ∃ j s, l[j]? = some s ∧ c = Call.execStmt (i + j) s := by
  induction l generalizing i with
  | nil => simp [stmtCalls]
  | cons a as ih =>
      simp only [stmtCalls, List.mem_cons, ih]
      constructor
      · rintro (rfl | ⟨j, s, hj, rfl⟩)
        · exact ⟨0, a, by simp⟩
        · refine ⟨j + 1, s, by simpa using hj, ?_⟩
          have : i + 1 + j = i + (j + 1) := by omega
          rw [this]
      · rintro ⟨j, s, hj, rfl⟩
        cases j with
        | zero =>
            left
            simp only [List.getElem?_cons_zero, Option.some.injEq] at hj
            simp [hj]
        | succ j =>
            right
            refine ⟨j, s, by simpa using hj, ?_⟩
            have : i + (j + 1) = i + 1 + j := by omega
            rw [this]

theorem sends_stmtCalls (i : Nat) (l : List String) : sends (stmtCalls i l) = [] := by
  induction l generalizing i with
  | nil => rfl
  | cons a as ih => simp [stmtCalls, sends, List.filterMap_cons] at *; exact ih (i + 1)

theorem execStatements_ok (env : AwsEnv) (i : Nat) (l : List String)
    (h : ∀ j s, l[j]? = some s → env.fails (Call.execStmt (i + j) s) = false) :
    execStatements env i l = (Except.ok (), stmtCalls i l) := by
  induction l generalizing i with
  | nil => rfl
  | cons a as ih =>
      have h0 : env.fails (Call.execStmt i a) = false := by
        have := h 0 a (by simp)
        simpa using this
      have hrec := ih (i + 1) fun j s hj => by
        have := h (j + 1) s (by simpa using hj)
        have harith : i + (j + 1) = i + 1 + j := by omega
        rwa [harith] at this
      simp [execStatements, issue, h0, hrec, stmtCalls]

theorem execStatements_fail (env : AwsEnv) (i : Nat) (l : List String) (k : Nat) (s : String)
    (hk : l[k]? = some s)
    (hf : env.fails (Call.execStmt (i + k) s) = true)
    (hpre : ∀ j t, j < k → l[j]? = some t → env.fails (Call.execStmt (i + j) t) = false) :
    execStatements env i l = (Except.error Exn.dbError, stmtCalls i (l.take (k + 1))) := by
  induction l generalizing i k with
  | nil => simp at hk
  | cons a as ih =>
      cases k with
      | zero =>
          simp only [List.getElem?_cons_zero, Option.some.injEq] at hk
          subst hk
          have hf0 : env.fails (Call.execStmt i a) = true := by simpa using hf
          simp [execStatements, issue, hf0, stmtCalls, List.take_succ_cons]
      | succ k =>
          have h0 : env.fails (Call.execStmt i a) = false := by
            have := hpre 0 a (by omega) (by simp)
            simpa using this
          have hk2 : as[k]? = some s := by simpa using hk
          have hf2 : env.fails (Call.execStmt (i + 1 + k) s) = true := by
            have harith : i + (k + 1) = i + 1 + k := by omega
            rwa [harith] at hf
          have hpre2 : ∀ j t, j < k → as[j]? = some t →
              env.fails (Call.execStmt (i + 1 + j) t) = false := by
            intro j t hj ht
            have := hpre (j + 1) t (by omega) (by simpa using ht)
            have harith : i + (j + 1) = i + 1 + j := by omega
            rwa [harith] at this
          have hrec := ih (i + 1) k hk2 hf2 hpre2
          simp [execStatements, issue, h0, hrec, stmtCalls, List.take_succ_cons]

/-! ## Closed forms of the handler body -/

theorem emptyBuckets_eq (env : AwsEnv) (bs : List String) :
    emptyBuckets env bs = (Except.ok (), bs.map Call.emptyBucket) := by
  induction bs with
  | nil => rfl
  | cons b rest ih => simp [emptyBuckets, empty_bucket_eq, ih]

theorem handlerBody_none (cfg : Config) (env : AwsEnv) (ev : Event)
    (h : ev.RequestType = none) :
    handlerBody cfg env ev = (Except.error Exn.keyError, []) := by
  unfold handlerBody
  simp [getKey, h]

theorem handlerBody_other (cfg : Config) (env : AwsEnv) (ev : Event) (rt : String)
    (h : ev.RequestType = some rt) (h1 : rt ≠ CREATE) (h2 : rt ≠ DELETE) :
    handlerBody cfg env ev = (Except.ok (), []) := by
  unfold handlerBody
  simp [getKey, h, h1, h2]

theorem handlerBody_create (cfg : Config) (env : AwsEnv) (ev : Event)
    (h : ev.RequestType = some CREATE) :
    handlerBody cfg env ev = provisioning cfg env := by
  unfold handlerBody
  have hne : CREATE ≠ DELETE := by decide
  rcases hp : provisioning cfg env with ⟨r, tr⟩
  cases r with
  | error e => simp [getKey, h, hp]
  | ok v =>
      cases v
      simp [getKey, h, hp, hne]

theorem handlerBody_delete (cfg : Config) (env : AwsEnv) (ev : Event)
    (h : ev.RequestType = some DELETE) :
    handlerBody cfg env ev =
      (deleteKeysResult ev, (s3_buckets cfg).map Call.emptyBucket) := by
  have hne : DELETE ≠ CREATE := by decide
  rcases ev with ⟨rt, p, si, ri, li, u⟩
  simp only [Event.RequestType] at h
  subst h
  unfold handlerBody
  cases p <;> cases si <;> cases ri <;> cases li <;> cases u <;>
    simp [getKey, hne, emptyBuckets_eq, deleteKeysResult]

theorem deleteKeysResult_ok_iff (ev : Event) :
    deleteKeysResult ev = Except.ok () ↔ hasAllDeleteKeys ev = true := by
  rcases ev with ⟨rt, p, si, ri, li, u⟩
  cases p <;> cases si <;> cases ri <;> cases li <;> cases u <;>
    simp [deleteKeysResult, hasAllDeleteKeys]

/-! ## No completion signal is issued inside the handler body -/

theorem sends_bind_empty {α β : Type} (a : Res α) (f : α → Res β)
    (ha : sends a.2 = []) (hf : ∀ v, sends (f v).2 = []) :
    sends (a >>= f).2 = [] := by
  rcases a with ⟨r, tr⟩
  cases r with
  | error e => simpa using ha
  | ok v =>
      simp only [Res.ok_bind]
      rw [sends_append]
      simp only at ha
      rw [ha, hf v]
      rfl

theorem sends_execStatements (env : AwsEnv) (i : Nat) (l : List String) :
    sends (execStatements env i l).2 = [] := by
  induction l generalizing i with
  | nil => rfl
  | cons a as ih =>
      cases h : env.fails (Call.execStmt i a) <;>
        · simp only [execStatements]
          refine sends_bind_empty _ _ ?_ fun v => ih (i + 1)
          simp [issue, h, sends]

theorem sends_terraform_cleanup (cfg : Config) (env : AwsEnv) :
    sends (terraform_cleanup cfg env).2 = [] := by
  rw [terraform_cleanup_eq]
  exact sends_cleanupCalls cfg env

theorem sends_provisioning (cfg : Config) (env : AwsEnv) :
    sends (provisioning cfg env).2 = [] := by
  unfold provisioning
  refine sends_bind_empty _ _ (sends_terraform_cleanup cfg env) fun _ => ?_
  refine sends_bind_empty _ _ (by cases h : env.fails (Call.s3GetObject cfg.BUCKET_NAME
    cfg.OBJECT_KEY) <;> simp [issue, h, sends]) fun _ => ?_
  refine sends_bind_empty _ _ (by cases h : env.fails Call.connectDb <;>
    simp [issue, h, sends]) fun _ => ?_
  refine sends_bind_empty _ _ (sends_execStatements env 0 env.scriptStatements) fun _ => ?_
  refine sends_bind_empty _ _ (by cases h : env.fails (Call.assumeRole cfg.IAM_ROLE_ARN) <;>
    simp [sts_assume_role, h, sends]) fun creds => ?_
  cases h : env.fails (Call.execImport (format_load cfg.BUCKET_NAME cfg.BUCKET_PATH
    creds.1 creds.2.1 creds.2.2)) <;> simp [issue, h, sends]

theorem sends_map_emptyBucket (bs : List String) :
    sends (bs.map Call.emptyBucket) = [] := by
  induction bs with
  | nil => rfl
  | cons b rest ih =>
      simp only [List.map_cons, sends, List.filterMap_cons]
      exact ih

theorem sends_getKey (o : Option String) : sends (getKey o).2 = [] := by
  cases o <;> rfl

theorem sends_handlerBody (cfg : Config) (env : AwsEnv) (ev : Event) :
    sends (handlerBody cfg env ev).2 = [] := by
  rcases h : ev.RequestType with _ | rt
  · rw [handlerBody_none cfg env ev h]
    rfl
  · by_cases hc : rt = CREATE
    · subst hc
      rw [handlerBody_create cfg env ev h]
      exact sends_provisioning cfg env
    · by_cases hd : rt = DELETE
      · subst hd
        rw [handlerBody_delete cfg env ev h]
        exact sends_map_emptyBucket _
      · rw [handlerBody_other cfg env ev rt h hc hd]
        rfl

/-- One invocation sends exactly the one status that reflects whether the body raised. -/
theorem sends_lambda_handler (cfg : Config) (env : AwsEnv) (ev : Event) :
    sends (lambda_handler cfg env ev) =
      [match (handlerBody cfg env ev).1 with
       | Except.ok _ => Status.SUCCESS
       | Except.error _ => Status.FAILED] := by
  unfold lambda_handler
  rcases h : handlerBody cfg env ev with ⟨r, tr⟩
  have hs := sends_handlerBody cfg env ev
  rw [h] at hs
  simp only at hs
  cases r <;>
    · rw [sends_append, hs]
      rfl

/-! ## Closed forms of the provisioning step -/

theorem provisioning_fail_at (cfg : Config) (env : AwsEnv) (k : Nat) (s : String)
    (hs : env.scriptStatements[k]? = some s)
    (hf : env.fails (Call.execStmt k s) = true)
    (hpre : ∀ j t, j < k → env.scriptStatements[j]? = some t →
      env.fails (Call.execStmt j t) = false)
    (hs3 : env.fails (Call.s3GetObject cfg.BUCKET_NAME cfg.OBJECT_KEY) = false)
    (hconn : env.fails Call.connectDb = false) :
    provisioning cfg env =
      (Except.error Exn.dbError,
       cleanupCalls cfg env ++
         (Call.s3GetObject cfg.BUCKET_NAME cfg.OBJECT_KEY ::
          Call.connectDb :: stmtCalls 0 (env.scriptStatements.take (k + 1)))) := by
  unfold provisioning
  have hf0 : env.fails (Call.execStmt (0 + k) s) = true := by
    have harith : 0 + k = k := by omega
    rwa [harith]
  have hpre0 : ∀ j t, j < k → env.scriptStatements[j]? = some t →
      env.fails (Call.execStmt (0 + j) t) = false := by
    intro j t hj ht
    have harith : 0 + j = j := by omega
    rw [harith]
    exact hpre j t hj ht
  have he := execStatements_fail env 0 env.scriptStatements k s hs hf0 hpre0
  rw [terraform_cleanup_eq]
  simp [issue, hs3, hconn, he]

theorem provisioning_empty_ok (cfg : Config) (env : AwsEnv)
    (h0 : env.scriptStatements = [])
    (hs3 : env.fails (Call.s3GetObject cfg.BUCKET_NAME cfg.OBJECT_KEY) = false)
    (hconn : env.fails Call.connectDb = false)
    (har : env.fails (Call.assumeRole cfg.IAM_ROLE_ARN) = false)
    (himp : env.fails (Call.execImport (format_load cfg.BUCKET_NAME cfg.BUCKET_PATH
      env.accessKey env.secretKey env.sessionToken)) = false) :
    provisioning cfg env =
      (Except.ok (),
       cleanupCalls cfg env ++
         [Call.s3GetObject cfg.BUCKET_NAME cfg.OBJECT_KEY, Call.connectDb,
          Call.assumeRole cfg.IAM_ROLE_ARN,
          Call.execImport (format_load cfg.BUCKET_NAME cfg.BUCKET_PATH env.accessKey
            env.secretKey env.sessionToken)]) := by
  unfold provisioning
  rw [terraform_cleanup_eq]
  simp [issue, hs3, hconn, h0, execStatements, sts_assume_role, har, himp]

/-! ## Small helpers -/

theorem getElem?_take_of_lt {α : Type} (l : List α) (n i : Nat) (h : i < n) :
    (l.take n)[i]? = l[i]? := by
  rw [List.getElem?_take]
  simp [h]

theorem lt_length_of_getElem? {α : Type} {l : List α} {n : Nat} {a : α}
    (h : l[n]? = some a) : n < l.length := by
  by_contra hn
  push_neg at hn
  rw [List.getElem?_eq_none hn] at h
  exact Option.noConfusion h

theorem notMem_cleanupCalls (cfg : Config) (env : AwsEnv) (c : Call)
    (hc : isCleanupCall c = false) : c ∉ cleanupCalls cfg env := by
  intro hmem
  have := cleanupCalls_classified cfg env c hmem
  rw [hc] at this
  exact Bool.noConfusion this

/-! ## Claim C2 -/

/-- C2: for every fault-injection combination (any subset of external calls raising, hence
in particular any single resource-deletion call or per-step enumeration raising),
`terraform_cleanup` returns normally (never raises), and every step of the fixed sequence
is still attempted: the ruleset enumeration, all five job deletions, the catalog
enumeration, the connection deletion, the policy deletion, and the role deletion all
appear in the trace. -/
theorem claimC2_thm (cfg : Config) (env : AwsEnv) :
    (terraform_cleanup cfg env).1 = Except.ok () ∧
    Call.listRulesets ∈ cleanupTrace cfg env ∧
    (∀ j ∈ glue_jobs cfg, Call.deleteJob j ∈ cleanupTrace cfg env) ∧
    Call.getDatabases ∈ cleanupTrace cfg env ∧
    Call.deleteConnection (cfg.PROJECT ++ "-connection-rds") ∈ cleanupTrace cfg env ∧
    Call.deleteRolePolicy (cfg.PROJECT ++ "-glue-role") (cfg.PROJECT ++ "-glue-role-policy")
      ∈ cleanupTrace cfg env ∧
    Call.deleteRole (cfg.PROJECT ++ "-glue-role") ∈ cleanupTrace cfg env := by
  refine ⟨by rw [terraform_cleanup_eq], ?_, ?_, ?_, ?_, ?_, ?_⟩ <;> rw [cleanupTrace_eq]
  · simp [cleanupCalls]
  · intro j hj
    have h1 : Call.deleteJob j ∈ (glue_jobs cfg).map Call.deleteJob :=
      List.mem_map_of_mem _ hj
    simp only [cleanupCalls, List.mem_cons, List.mem_append]
    tauto
  · simp [cleanupCalls]
  · simp [cleanupCalls]
  · simp [cleanupCalls]
  · simp [cleanupCalls]

/-- C2 witness: with every external call failing, the teardown still returns normally and
still attempts the third job deletion and the role deletion. -/
theorem claimC2_witness :
    (terraform_cleanup cfg0 envFailAll).1 = Except.ok () ∧
    Call.deleteJob "de-c4w4a1-rds-extract-job" ∈ cleanupTrace cfg0 envFailAll ∧
    Call.deleteRole "de-c4w4a1-glue-role" ∈ cleanupTrace cfg0 envFailAll := by
  refine ⟨(claimC2_thm cfg0 envFailAll).1, ?_, ?_⟩
  · exact (claimC2_thm cfg0 envFailAll).2.2.1 "de-c4w4a1-rds-extract-job" (by decide)
  · exact (claimC2_thm cfg0 envFailAll).2.2.2.2.2.2

/-! ## Claim C3 -/

/-- C3: in every teardown trace, wherever a database-deletion attempt is issued, one
table-deletion attempt for each of that database's tables has been issued strictly
earlier; and the built-in `default` database is never passed to the database deleter, nor
are its tables deleted. -/
theorem claimC3_thm (cfg : Config) (env : AwsEnv) :
    tablesFirst env.tables (cleanupTrace cfg env) ∧
    Call.deleteDatabase "default" ∉ cleanupTrace cfg env ∧
    ∀ t, Call.deleteTable "default" t ∉ cleanupTrace cfg env := by
  rw [cleanupTrace_eq]
  refine ⟨?_, ?_, ?_⟩
  · unfold cleanupCalls
    refine tablesFirst_cons _ _ _ (by simp) ?_
    refine tablesFirst_append_left _ _ _ ?_ ?_
    · intro c hc db
      rcases List.mem_map.mp hc with ⟨x, _, hx⟩
      simp [← hx]
    · refine tablesFirst_cons _ _ _ (by simp) ?_
      refine tablesFirst_append_right _ _ _ ?_ ?_
      · by_cases hg : env.fails Call.getDatabases = true
        · simp only [hg, if_true, reduceIte]
          exact tablesFirst_nil _
        · simp only [hg, if_false, reduceIte]
          exact walkCalls_tablesFirst env env.databases
      · intro c hc db
        simp only [List.mem_cons, List.not_mem_nil, or_false] at hc
        rcases hc with h1 | h2 | h3
        · simp [h1]
        · simp [h2]
        · simp [h3]
  · intro hmem
    simp only [cleanupCalls, List.mem_cons, List.mem_append, List.not_mem_nil,
      or_false] at hmem
    rcases hmem with h1 | h2 | h3 | h4 | h5 | h6 | h7
    · exact Call.noConfusion h1
    · rcases List.mem_map.mp h2 with ⟨x, _, hx⟩
      exact Call.noConfusion hx
    · exact Call.noConfusion h3
    · by_cases hg : env.fails Call.getDatabases = true
      · simp [hg] at h4
      · simp only [hg, if_false, reduceIte] at h4
        exact (walkCalls_default_free env env.databases).1 h4
    · exact Call.noConfusion h5
    · exact Call.noConfusion h6
    · exact Call.noConfusion h7
  · intro t hmem
    simp only [cleanupCalls, List.mem_cons, List.mem_append, List.not_mem_nil,
      or_false] at hmem
    rcases hmem with h1 | h2 | h3 | h4 | h5 | h6 | h7
    · exact Call.noConfusion h1
    · rcases List.mem_map.mp h2 with ⟨x, _, hx⟩
      exact Call.noConfusion hx
    · exact Call.noConfusion h3
    · by_cases hg : env.fails Call.getDatabases = true
      · simp [hg] at h4
      · simp only [hg, if_false, reduceIte] at h4
        exact (walkCalls_default_free env env.databases).2 t h4
    · exact Call.noConfusion h5
    · exact Call.noConfusion h6
    · exact Call.noConfusion h7

/-- C3 witness: in the concrete two-database world, the deletion attempt of database `db1`
sits at position 10 of the teardown trace and both of its table deletions precede it;
`default` is never deleted. -/
theorem claimC3_witness :
    Call.deleteTable "db1" "t1" ∈ (cleanupTrace cfg0 envWalk).take 10 ∧
    Call.deleteTable "db1" "t2" ∈ (cleanupTrace cfg0 envWalk).take 10 ∧
    Call.deleteDatabase "default" ∉ cleanupTrace cfg0 envWalk := by
  refine ⟨?_, ?_, (claimC3_thm cfg0 envWalk).2.1⟩
  · exact (claimC3_thm cfg0 envWalk).1 10 "db1" (by decide) "t1" (by decide)
  · exact (claimC3_thm cfg0 envWalk).1 10 "db1" (by decide) "t2" (by decide)

/-! ## Claim C4 -/

/-- C4: in every run of the teardown (any fault-injection combination, in particular even
when the policy deletion call fails), the role-policy deletion attempt and the role
deletion attempt both occur, with the policy deletion strictly before the role
deletion. -/
theorem claimC4_thm (cfg : Config) (env : AwsEnv) :
    List.Sublist
      [Call.deleteRolePolicy (cfg.PROJECT ++ "-glue-role")
        (cfg.PROJECT ++ "-glue-role-policy"),
       Call.deleteRole (cfg.PROJECT ++ "-glue-role")]
      (cleanupTrace cfg env) := by
  rw [cleanupTrace_eq]
  have h : cleanupCalls cfg env =
      (Call.listRulesets ::
        ((glue_jobs cfg).map Call.deleteJob ++
          Call.getDatabases ::
            ((if env.fails Call.getDatabases then [] else walkCalls env env.databases) ++
             [Call.deleteConnection (cfg.PROJECT ++ "-connection-rds")]))) ++
      [Call.deleteRolePolicy (cfg.PROJECT ++ "-glue-role")
        (cfg.PROJECT ++ "-glue-role-policy"),
       Call.deleteRole (cfg.PROJECT ++ "-glue-role")] := by
    simp [cleanupCalls]
  rw [h]
  exact List.sublist_append_right _ _

/-! ## Claim C6 -/

/-- C6: with one ruleset known to the catalog service, the teardown issues the enumeration
call but never issues any per-ruleset delete call — line 99 invokes
`delete_data_quality_ruleset` on the enumeration response dict instead of the glue client,
so the step dies with `AttributeError` (isolated at the step boundary) before any delete. -/
theorem claimC6_bug :
    envRS.rulesets = ["rs1"] ∧
    Call.listRulesets ∈ cleanupTrace cfg0 envRS ∧
    Call.deleteRuleset "rs1" ∉ cleanupTrace cfg0 envRS ∧
    Call.deleteRole "de-c4w4a1-glue-role" ∈ cleanupTrace cfg0 envRS := by
  refine ⟨rfl, ?_, ?_, ?_⟩ <;> decide

/-! ## Claim C7 -/

/-- C7: reading the configuration does not succeed for every environment.  With `DBPORT`
unset, line 14 evaluates `int(os.getenv("DBPORT", ""))` = `int("")`, which raises
`ValueError`; with only `DBPORT` set, every other absent variable takes its default and the
read succeeds. -/
theorem claimC7_bug :
    readConfig (fun _ => none) = Except.error Exn.valueError ∧
    readConfig (fun n => if n = "DBPORT" then some "5432" else none) =
      Except.ok
        { DBHOST := "", DBPORT := 5432, DBNAME := "postgres", DBUSER := "",
          DBPASSWORD := "", BUCKET_NAME := "", OBJECT_KEY := "", IAM_ROLE_ARN := "",
          BUCKET_PATH := "labs/cfn_dependencies/c4w4a1/csv", ACCOUNT_ID := "",
          PROJECT := "de-c4w4a1", REGION := "us-east-1" } := by
  constructor <;> rfl

/-! ## Claim C8 -/

/-- C8: for every event whose RequestType is present but neither Create nor Delete, the
handler issues no call at all except exactly one SUCCESS completion signal. -/
theorem claimC8_thm (cfg : Config) (env : AwsEnv) (ev : Event) (rt : String)
    (h : ev.RequestType = some rt) (h1 : rt ≠ "Create") (h2 : rt ≠ "Delete") :
    lambda_handler cfg env ev = [Call.send Status.SUCCESS] := by
  unfold lambda_handler
  rw [handlerBody_other cfg env ev rt h h1 h2]
  rfl

/-- C8 witness: an Update event produces exactly the single SUCCESS signal. -/
theorem claimC8_witness :
    lambda_handler cfg0 envBase evUpdate = [Call.send Status.SUCCESS] :=
  claimC8_thm cfg0 envBase evUpdate "Update" rfl (by decide) (by decide)

/-! ## Claim C9 -/

/-- C9: when the event lacks RequestType, or is a Delete event lacking any of the five
fields read on the Delete path, the handler catches the KeyError and sends exactly one
FAILED completion signal. -/
theorem claimC9_thm (cfg : Config) (env : AwsEnv) (ev : Event)
    (h : ev.RequestType = none ∨
      (ev.RequestType = some "Delete" ∧
        (ev.PhysicalResourceId = none ∨ ev.StackId = none ∨ ev.RequestId = none ∨
         ev.LogicalResourceId = none ∨ ev.ResponseURL = none))) :
    sends (lambda_handler cfg env ev) = [Status.FAILED] := by
  rw [sends_lambda_handler]
  rcases h with h | ⟨hrt, hmiss⟩
  · rw [handlerBody_none cfg env ev h]
  · rw [handlerBody_delete cfg env ev hrt]
    cases hk : deleteKeysResult ev with
    | ok v =>
        exfalso
        have hall := (deleteKeysResult_ok_iff ev).mp (by rw [hk])
        rcases hmiss with hm | hm | hm | hm | hm <;>
          simp [hasAllDeleteKeys, hm] at hall
    | error e => rfl

/-- C9 witness: a Delete event missing StackId yields exactly one FAILED signal. -/
theorem claimC9_witness :
    sends (lambda_handler cfg0 envBase evDeleteNoStack) = [Status.FAILED] :=
  claimC9_thm cfg0 envBase evDeleteNoStack (Or.inr ⟨rfl, Or.inr (Or.inl rfl)⟩)

/-! ## Claim C1 -/

/-- C1 counterexample: a Delete invocation (RequestType present and equal to Delete) whose
event merely lacks PhysicalResourceId ends with a FAILED signal even though the Create-path
provisioning step never ran (no S3 fetch was issued), contradicting both "every Delete
invocation ends with a SUCCESS signal" and "FAILED if and only if the Create-path
provisioning step raised". -/
theorem claimC1_counterexample :
    evDeleteMissing.RequestType = some "Delete" ∧
    sends (lambda_handler cfg0 envBase evDeleteMissing) = [Status.FAILED] ∧
    Call.s3GetObject cfg0.BUCKET_NAME cfg0.OBJECT_KEY ∉
      lambda_handler cfg0 envBase evDeleteMissing := by
  refine ⟨rfl, ?_, ?_⟩ <;> decide

/-- C1 (amended): the handler sends exactly one completion signal per invocation.  The
signal is FAILED exactly when the handler body raised: when RequestType is missing; on a
Create event, exactly when the provisioning step raised; on a Delete event, exactly when
one of the five Delete-path event fields is missing (so a Delete invocation with all
required fields present ends with SUCCESS, and an event with an unrecognized RequestType
yields SUCCESS with no action). -/
theorem claimC1_thm (cfg : Config) (env : AwsEnv) (ev : Event) :
    (sends (lambda_handler cfg env ev)).length = 1 ∧
    (ev.RequestType = none → sends (lambda_handler cfg env ev) = [Status.FAILED]) ∧
    (∀ rt, ev.RequestType = some rt → rt ≠ "Create" → rt ≠ "Delete" →
      sends (lambda_handler cfg env ev) = [Status.SUCCESS]) ∧
    (ev.RequestType = some "Create" →
      (sends (lambda_handler cfg env ev) = [Status.FAILED] ↔
        (provisioning cfg env).1 ≠ Except.ok ())) ∧
    (ev.RequestType = some "Delete" →
      (sends (lambda_handler cfg env ev) = [Status.FAILED] ↔
        hasAllDeleteKeys ev = false)) := by
  have hl := sends_lambda_handler cfg env ev
  refine ⟨?_, ?_, ?_, ?_, ?_⟩
  · rw [hl]
    rfl
  · intro h
    rw [hl, handlerBody_none cfg env ev h]
  · intro rt h h1 h2
    rw [hl, handlerBody_other cfg env ev rt h h1 h2]
  · intro h
    rw [hl, handlerBody_create cfg env ev h]
    cases hp : (provisioning cfg env).1 with
    | ok v =>
        cases v
        simp [hp]
    | error e => simp [hp]
  · intro h
    rw [hl, handlerBody_delete cfg env ev h]
    cases hk : deleteKeysResult ev with
    | ok v =>
        cases v
        have hall := (deleteKeysResult_ok_iff ev).mp hk
        simp [hall]
    | error e =>
        have hnall : hasAllDeleteKeys ev = false := by
          cases hb : hasAllDeleteKeys ev
          · rfl
          · exfalso
            have := (deleteKeysResult_ok_iff ev).mpr hb
            rw [hk] at this
            exact Except.noConfusion this
        simp [hnall]

/-- C1 witness: an event lacking RequestType gets exactly one FAILED signal. -/
theorem claimC1_witness :
    sends (lambda_handler cfg0 envBase evNone) = [Status.FAILED] :=
  (claimC1_thm cfg0 envBase evNone).2.1 rfl

/-! ## Claim C5 -/

/-- C5: on a Create event whose split script fails at statement k (the earlier statements
succeeding, with the S3 fetch and the connection succeeding), the trace contains exactly
the statement attempts up to and including k — every earlier statement was executed, the
failing statement was attempted, nothing beyond index k is executed — no bulk-import
statement is attempted, no temporary credentials are requested, and the handler sends
exactly one FAILED signal. -/
theorem claimC5_thm (cfg : Config) (env : AwsEnv) (ev : Event) (k : Nat) (s : String)
    (hev : ev.RequestType = some "Create")
    (hs : env.scriptStatements[k]? = some s)
    (hf : env.fails (Call.execStmt k s) = true)
    (hpre : ∀ j t, j < k → env.scriptStatements[j]? = some t →
      env.fails (Call.execStmt j t) = false)
    (hs3 : env.fails (Call.s3GetObject cfg.BUCKET_NAME cfg.OBJECT_KEY) = false)
    (hconn : env.fails Call.connectDb = false) :
    (∀ j t, j < k → env.scriptStatements[j]? = some t →
      Call.execStmt j t ∈ lambda_handler cfg env ev) ∧
    Call.execStmt k s ∈ lambda_handler cfg env ev ∧
    (∀ j t, Call.execStmt j t ∈ lambda_handler cfg env ev → j ≤ k) ∧
    (∀ st, Call.execImport st ∉ lambda_handler cfg env ev) ∧
    (∀ arn, Call.assumeRole arn ∉ lambda_handler cfg env ev) ∧
    sends (lambda_handler cfg env ev) = [Status.FAILED] := by
  have hb := handlerBody_create cfg env ev hev
  have hp := provisioning_fail_at cfg env k s hs hf hpre hs3 hconn
  have htr : lambda_handler cfg env ev =
      cleanupCalls cfg env ++
        (Call.s3GetObject cfg.BUCKET_NAME cfg.OBJECT_KEY ::
         Call.connectDb :: stmtCalls 0 (env.scriptStatements.take (k + 1))) ++
      [Call.send Status.FAILED] := by
    unfold lambda_handler
    rw [hb, hp]
  have hmemStmt : ∀ j t, Call.execStmt j t ∈ stmtCalls 0 (env.scriptStatements.take (k + 1))
      ↔ (env.scriptStatements.take (k + 1))[j]? = some t := by
    intro j t
    rw [stmtCalls_mem_iff]
    constructor
    · rintro ⟨j2, s2, hj2, he⟩
      injection he with he1 he2
      subst he2
      have : j = j2 := by omega
      subst this
      exact hj2
    · intro hj
      exact ⟨j, t, hj, by rw [Nat.zero_add]⟩
  refine ⟨?_, ?_, ?_, ?_, ?_, ?_⟩
  · intro j t hj ht
    rw [htr]
    refine List.mem_append_left _ (List.mem_append_right _ ?_)
    refine List.mem_cons_of_mem _ (List.mem_cons_of_mem _ ?_)
    rw [hmemStmt, getElem?_take_of_lt _ _ _ (by omega)]
    exact ht
  · rw [htr]
    refine List.mem_append_left _ (List.mem_append_right _ ?_)
    refine List.mem_cons_of_mem _ (List.mem_cons_of_mem _ ?_)
    rw [hmemStmt, getElem?_take_of_lt _ _ _ (by omega)]
    exact hs
  · intro j t hmem
    rw [htr] at hmem
    rcases List.mem_append.mp hmem with hmem1 | hmem2
    · rcases List.mem_append.mp hmem1 with hmem3 | hmem4
      · exact absurd hmem3 (notMem_cleanupCalls cfg env _ rfl)
      · rcases List.mem_cons.mp hmem4 with he | hmem5
        · exact Call.noConfusion he
        · rcases List.mem_cons.mp hmem5 with he | hmem6
          · exact Call.noConfusion he
          · have hj := (hmemStmt j t).mp hmem6
            have hlt := lt_length_of_getElem? hj
            have hlen : (env.scriptStatements.take (k + 1)).length ≤ k + 1 := by
              rw [List.length_take]
              omega
            omega
    · rcases List.mem_cons.mp hmem2 with he | hmem7
      · exact Call.noConfusion he
      · exact absurd hmem7 (List.not_mem_nil _)
  · intro st hmem
    rw [htr] at hmem
    rcases List.mem_append.mp hmem with hmem1 | hmem2
    · rcases List.mem_append.mp hmem1 with hmem3 | hmem4
      · exact absurd hmem3 (notMem_cleanupCalls cfg env _ rfl)
      · rcases List.mem_cons.mp hmem4 with he | hmem5
        · exact Call.noConfusion he
        · rcases List.mem_cons.mp hmem5 with he | hmem6
          · exact Call.noConfusion he
          · rcases (stmtCalls_mem_iff _ _ _).mp hmem6 with ⟨j2, s2, _, he⟩
            exact Call.noConfusion he
    · rcases List.mem_cons.mp hmem2 with he | hmem7
      · exact Call.noConfusion he
      · exact absurd hmem7 (List.not_mem_nil _)
  · intro arn hmem
    rw [htr] at hmem
    rcases List.mem_append.mp hmem with hmem1 | hmem2
    · rcases List.mem_append.mp hmem1 with hmem3 | hmem4
      · exact absurd hmem3 (notMem_cleanupCalls cfg env _ rfl)
      · rcases List.mem_cons.mp hmem4 with he | hmem5
        · exact Call.noConfusion he
        · rcases List.mem_cons.mp hmem5 with he | hmem6
          · exact Call.noConfusion he
          · rcases (stmtCalls_mem_iff _ _ _).mp hmem6 with ⟨j2, s2, _, he⟩
            exact Call.noConfusion he
    · rcases List.mem_cons.mp hmem2 with he | hmem7
      · exact Call.noConfusion he
      · exact absurd hmem7 (List.not_mem_nil _)
  · rw [sends_lambda_handler, hb, hp]

/-- C5 witness: with five statements and the third failing, statements 1-2 (indices 0-1)
and the failing attempt appear, no credentials are requested, and the single signal is
FAILED. -/
theorem claimC5_witness :
    Call.execStmt 1 "s2" ∈ lambda_handler cfg0 envStmts evCreate ∧
    Call.execStmt 2 "s3" ∈ lambda_handler cfg0 envStmts evCreate ∧
    Call.assumeRole "arn-role" ∉ lambda_handler cfg0 envStmts evCreate ∧
    sends (lambda_handler cfg0 envStmts evCreate) = [Status.FAILED] := by
  have h := claimC5_thm cfg0 envStmts evCreate 2 "s3" rfl (by decide) (by decide)
    (by
      intro j t hj ht
      interval_cases j <;>
        · simp [envStmts, envBase] at ht
          subst ht
          decide)
    (by decide) (by decide)
  exact ⟨h.1 1 "s2" (by omega) (by decide), h.2.1, h.2.2.2.2.1 "arn-role", h.2.2.2.2.2⟩

/-! ## Claim C10 -/

/-- C10: on a Create event whose fetched script splits into zero statements (with the S3
fetch, connection, credential exchange and import all succeeding), the provisioning step
still requests temporary credentials and still executes the one bulk-import statement, and
the handler sends exactly one SUCCESS signal. -/
theorem claimC10_thm (cfg : Config) (env : AwsEnv) (ev : Event)
    (hev : ev.RequestType = some "Create")
    (h0 : env.scriptStatements = [])
    (hs3 : env.fails (Call.s3GetObject cfg.BUCKET_NAME cfg.OBJECT_KEY) = false)
    (hconn : env.fails Call.connectDb = false)
    (har : env.fails (Call.assumeRole cfg.IAM_ROLE_ARN) = false)
    (himp : env.fails (Call.execImport (format_load cfg.BUCKET_NAME cfg.BUCKET_PATH
      env.accessKey env.secretKey env.sessionToken)) = false) :
    Call.assumeRole cfg.IAM_ROLE_ARN ∈ lambda_handler cfg env ev ∧
    Call.execImport (format_load cfg.BUCKET_NAME cfg.BUCKET_PATH env.accessKey
      env.secretKey env.sessionToken) ∈ lambda_handler cfg env ev ∧
    sends (lambda_handler cfg env ev) = [Status.SUCCESS] := by
  have hb := handlerBody_create cfg env ev hev
  have hp := provisioning_empty_ok cfg env h0 hs3 hconn har himp
  have htr : lambda_handler cfg env ev =
      cleanupCalls cfg env ++
        [Call.s3GetObject cfg.BUCKET_NAME cfg.OBJECT_KEY, Call.connectDb,
         Call.assumeRole cfg.IAM_ROLE_ARN,
         Call.execImport (format_load cfg.BUCKET_NAME cfg.BUCKET_PATH env.accessKey
           env.secretKey env.sessionToken)] ++
      [Call.send Status.SUCCESS] := by
    unfold lambda_handler
    rw [hb, hp]
  refine ⟨?_, ?_, ?_⟩
  · rw [htr]
    refine List.mem_append_left _ (List.mem_append_right _ ?_)
    simp
  · rw [htr]
    refine List.mem_append_left _ (List.mem_append_right _ ?_)
    simp
  · rw [sends_lambda_handler, hb, hp]

/-- C10 witness: in the concrete no-failure world with an empty script, the credentials are
requested and the single signal is SUCCESS. -/
theorem claimC10_witness :
    Call.assumeRole "arn-role" ∈ lambda_handler cfg0 envBase evCreate ∧
    sends (lambda_handler cfg0 envBase evCreate) = [Status.SUCCESS] := by
  have h := claimC10_thm cfg0 envBase evCreate rfl rfl rfl rfl rfl rfl
  exact ⟨h.1, h.2.2⟩
